import Mathlib

/-!
Verification of the tenant-scoped compliance and cryptography layer of the
ai-risk-scenario-generator backend: a shallow embedding of
`EncryptionService` (auth/encryption.service), `AuditLogService`
(common/audit-log.service) and `DataResidencyService`
(common/data-residency.service), together with theorems settling the
specification claims about them.

Modelling conventions:
* Byte buffers are `List Nat` (a real byte is 0..255; byte-level claims only
  need freedom to alter entries, so the entries are left unbounded).
* Randomness (`crypto.randomBytes`) is passed in as explicit `salt`/`iv`
  parameters; configuration lookups (`ENCRYPTION_MASTER_KEY`, `HMAC_SECRET`)
  are `Option String` parameters, `none` meaning "not configured".
* Throwing code is embedded as `Except String` values; `Except.error` is a
  thrown exception.
* The cryptographic primitives (PBKDF2, the AES-256-GCM keystream and
  authentication tag, HMAC-SHA256) are modelled as ideal symbolic functions:
  injective encodings of exactly the inputs the real primitive depends on.
  Crucially, the source uses the deprecated `crypto.createCipher` /
  `crypto.createDecipher` API, which derives the cipher state from the key
  alone; the random `iv` is therefore written into the blob but never used
  by the cipher, and the model reproduces that.
-/

deriving instance DecidableEq for Except

/-- Base for the positional encoding of strings: strictly larger than every
Unicode scalar value (`0x110000`). -/
def strB : Nat := 1114112

/-- Injective positional encoding of a list of character codes (all below
`strB`) into a single natural number. -/
def encodeCodes : List Nat → Nat
  | [] => 0
  | c :: rest => (c + 1) + strB * encodeCodes rest

/-- Injective encoding of a string into a natural number. -/
def encodeString (s : String) : Nat := encodeCodes (s.data.map Char.toNat)

/-- Inverse of `encodeCodes`, used only in proofs. -/
def decodeCodes : Nat → List Nat
  | 0 => []
  | n + 1 => n % strB :: decodeCodes (n / strB)
decreasing_by exact Nat.lt_succ_of_le (Nat.div_le_self n strB)

/-- Injective encoding of an arbitrary list of naturals (used for salts and
ciphertext bodies) via iterated pairing. -/
def encodeListNat : List Nat → Nat
  | [] => 0
  | a :: l => Nat.pair a (encodeListNat l) + 1

/-- Base for rendering a natural number as a string of valid characters:
`0xd800`, the first surrogate code point, so every digit is a valid scalar. -/
def charB : Nat := 55296

/-- Digits of `n` in base `charB`, least significant first, as characters.
The first argument is structural fuel (`n` itself suffices). -/
def natToCharsAux : Nat → Nat → List Char
  | _, 0 => []
  | 0, _ + 1 => []
  | fuel + 1, n + 1 => Char.ofNat ((n + 1) % charB) :: natToCharsAux fuel ((n + 1) / charB)

/-- Injective rendering of a natural number as a string. -/
def natToChars (n : Nat) : String := String.mk (natToCharsAux n n)

/-- Inverse of `natToChars`, used only in proofs. -/
def charsToNat : List Char → Nat
  | [] => 0
  | c :: rest => c.toNat + charB * charsToNat rest

/-! ## EncryptionService (src/apps/backend/src/auth/encryption.service.ts) -/

/-- `EncryptionService.deriveKey`: PBKDF2(masterKey, salt, 100000, 32, sha256),
modelled as an ideal KDF: an injective function of master key and salt. -/
def deriveKey (masterKey : String) (salt : List Nat) : Nat :=
  Nat.pair (encodeString masterKey) (encodeListNat salt)

/-- The AES-256-GCM encryption of `plaintext` under `createCipher(alg, key)`.
`createCipher` derives its cipher state (including the internal IV) from the
key alone, so the ciphertext is a function of key and plaintext only. It is
modelled as an ideal keystream: each plaintext byte is offset by the key. -/
def gcmEncryptBytes (key : Nat) (plaintext : String) : List Nat :=
  plaintext.data.map (fun c => key + c.toNat)

/-- The corresponding GCM decryption (`decipher.update`): invert the
keystream offset. With the wrong key this produces garbage characters. -/
def gcmDecryptBytes (key : Nat) (ct : List Nat) : String :=
  String.mk (ct.map (fun b => Char.ofNat (b - key)))

/-- The GCM authentication tag: a MAC over exactly the cipher key, the
associated data, and the ciphertext bytes, modelled as an injective
encoding of those three inputs. -/
def gcmTag (key : Nat) (aad : String) (ct : List Nat) : Nat :=
  Nat.pair key (Nat.pair (encodeString aad) (encodeListNat ct))

/-- The 16-byte tag buffer returned by `cipher.getAuthTag()`. -/
def tagBytes (key : Nat) (aad : String) (ct : List Nat) : List Nat :=
  gcmTag key aad ct :: List.replicate 15 0

/-- `EncryptionService.encrypt` with the master key configured. `salt` and
`iv` are the two fresh 16-byte `crypto.randomBytes` draws. The result is the
base64-decoded combined blob `salt ++ iv ++ tag ++ ciphertext`. Faithful to
the source, the cipher is built with `createCipher` from the derived key, so
the random `iv` is concatenated into the blob but never used by the cipher;
the associated data is `orgId ?? "global"`. -/
def encrypt (masterKey : String) (salt iv : List Nat) (plaintext : String)
    (orgId : Option String) : List Nat :=
  let key := deriveKey masterKey salt
  let aad := orgId.getD "global"
  let ct := gcmEncryptBytes key plaintext
  salt ++ iv ++ tagBytes key aad ct ++ ct

/-- `EncryptionService.decrypt` with the master key configured: slice the
blob into salt (0..16), iv (16..32, extracted but unused, as in the source),
tag (32..48) and ciphertext (48..); re-derive the key from the embedded salt;
authenticate tag against key, associated data and ciphertext
(`decipher.final` throws on mismatch, surfaced as the uniform
"Decryption failed" error); on success return the decrypted plaintext. -/
def decrypt (masterKey : String) (blob : List Nat) (orgId : Option String) :
    Except String String :=
  let salt := blob.take 16
  let _iv := (blob.drop 16).take 16
  let tag := (blob.drop 32).take 16
  let ct := blob.drop 48
  let key := deriveKey masterKey salt
  let aad := orgId.getD "global"
  if tag = tagBytes key aad ct then
    Except.ok (gcmDecryptBytes key ct)
  else
    Except.error "Decryption failed: Unsupported state or unable to authenticate data"

/-- `EncryptionService.encrypt` including the configuration check of
`deriveKey`: with no master key configured the call throws. -/
def encryptE (masterKey : Option String) (salt iv : List Nat) (plaintext : String)
    (orgId : Option String) : Except String (List Nat) :=
  match masterKey with
  | none => Except.error "Encryption failed: ENCRYPTION_MASTER_KEY not configured"
  | some k => Except.ok (encrypt k salt iv plaintext orgId)

/-- HMAC-SHA256 digest (32 bytes), modelled as an ideal MAC: an injective
encoding of secret and message into the first byte of a 32-byte buffer. -/
def hmacBytes (secret data : String) : List Nat :=
  Nat.pair (encodeString secret) (encodeString data) :: List.replicate 31 0

/-- `EncryptionService.createHMAC`: throws when `HMAC_SECRET` is not
configured, otherwise returns the digest (the source returns it hex-encoded;
the model works with the decoded bytes throughout). -/
def createHMAC (secret : Option String) (data : String) : Except String (List Nat) :=
  match secret with
  | none => Except.error "HMAC_SECRET not configured"
  | some s => Except.ok (hmacBytes s data)

/-- `crypto.timingSafeEqual`: compares two byte buffers, throwing when the
lengths differ (as the Node primitive does). -/
def timingSafeEqual (a b : List Nat) : Except String Bool :=
  if a.length = b.length then Except.ok (decide (a = b))
  else Except.error "Input buffers must have the same byte length"

/-- `EncryptionService.verifyHMAC`: recompute the MAC and compare it with
`timingSafeEqual`; `signature` is the supplied signature's decoded bytes. -/
def verifyHMAC (secret : Option String) (data : String) (signature : List Nat) :
    Except String Bool :=
  match createHMAC secret data with
  | Except.error msg => Except.error msg
  | Except.ok expected => timingSafeEqual signature expected

/-! ## AuditLogService (src/apps/backend/src/common/audit-log.service.ts) -/

/-- The caller-supplied part of an audit entry
(`Omit<AuditLogEntry, 'id' | 'timestamp' | 'signature'>`).
`details` (a `Record<string, any>`) is modelled as a key/value list. -/
structure AuditInput where
  userId : String
  orgId : String
  action : String
  resourceType : String
  resourceId : String
  details : List (String × String)
  ipAddress : String
  userAgent : String

/-- The `details` field of a stored entry: either the original map (left
as-is when empty) or the encrypted blob `{ encrypted: ... }`. -/
inductive AuditDetails where
  | plain (kv : List (String × String))
  | encrypted (blob : List Nat)
deriving DecidableEq

/-- A constructed `AuditLogEntry`. `timestamp` is the epoch-milliseconds
value of the `Date`; `signature` holds the HMAC digest bytes. -/
structure AuditLogEntry where
  userId : String
  orgId : String
  action : String
  resourceType : String
  resourceId : String
  details : AuditDetails
  ipAddress : String
  userAgent : String
  timestamp : Nat
  signature : Option (List Nat)
deriving DecidableEq

/-- The canonical serialization signed by `logAction`:
`JSON.stringify({userId, orgId, action, resourceType, resourceId,
timestamp: timestamp.toISOString()})`. On this fixed shape JSON
stringification (with its escaping) and `toISOString` are injective in the
six fields; the model realises it as an explicit injective serialization of
the six-tuple into a string. -/
def dataToSign (userId orgId action resourceType resourceId : String)
    (timestamp : Nat) : String :=
  natToChars (Nat.pair (encodeString userId) (Nat.pair (encodeString orgId)
    (Nat.pair (encodeString action) (Nat.pair (encodeString resourceType)
      (Nat.pair (encodeString resourceId) timestamp)))))

/-- `JSON.stringify(auditEntry.details)`, used only as an opaque payload for
the detail encryption. -/
def stringifyDetails (kv : List (String × String)) : String :=
  String.join (kv.map (fun p => p.1 ++ ":" ++ p.2))

/-- The entry construction inside `AuditLogService.logAction`, up to the
store call: stamp the timestamp, sign the six canonical fields, and replace
non-empty details by their encryption under the entry's org id. Any throw
(signer or cipher misconfiguration) surfaces as `Except.error` here and is
caught by `logAction`. -/
def buildAuditEntry (hmacSecret masterKey : Option String) (salt iv : List Nat)
    (now : Nat) (e : AuditInput) : Except String AuditLogEntry :=
  match createHMAC hmacSecret
      (dataToSign e.userId e.orgId e.action e.resourceType e.resourceId now) with
  | Except.error msg => Except.error msg
  | Except.ok sig =>
    if e.details.isEmpty then
      Except.ok ⟨e.userId, e.orgId, e.action, e.resourceType, e.resourceId,
        AuditDetails.plain e.details, e.ipAddress, e.userAgent, now, some sig⟩
    else
      match encryptE masterKey salt iv (stringifyDetails e.details) (some e.orgId) with
      | Except.error msg => Except.error msg
      | Except.ok blob =>
        Except.ok ⟨e.userId, e.orgId, e.action, e.resourceType, e.resourceId,
          AuditDetails.encrypted blob, e.ipAddress, e.userAgent, now, some sig⟩

/-- `AuditLogService.logAction`: build and sign the entry, store it through
the injected `store` dependency, and catch every failure (the catch block
only logs locally). The result type records that the caller never sees an
exception. -/
def logAction (store : AuditLogEntry → Except String Unit)
    (hmacSecret masterKey : Option String) (salt iv : List Nat) (now : Nat)
    (e : AuditInput) : Except String Unit :=
  match (match buildAuditEntry hmacSecret masterKey salt iv now e with
         | Except.ok entry => store entry
         | Except.error msg => Except.error msg) with
  | Except.ok _ => Except.ok ()
  | Except.error _ => Except.ok ()

/-- `AuditLogService.verifyAuditEntry`: re-serialize the six signed fields
and verify the stored signature; any throw inside (missing signature,
missing secret, length-mismatched signature) is caught and yields `false`. -/
def verifyAuditEntry (hmacSecret : Option String) (entry : AuditLogEntry) : Bool :=
  match entry.signature with
  | none => false
  | some sig =>
    match verifyHMAC hmacSecret
        (dataToSign entry.userId entry.orgId entry.action entry.resourceType
          entry.resourceId entry.timestamp) sig with
    | Except.ok b => b
    | Except.error _ => false

/-! ## DataResidencyService (src/apps/backend/src/common/data-residency.service.ts) -/

/-- The `restrictions` component of a `DataResidencyRule`. -/
structure RuleRestrictions where
  allowedRegions : List String
  prohibitedRegions : List String
  requiresEncryption : Bool
  retentionPeriodDays : Nat
deriving DecidableEq

/-- A data residency rule. -/
structure DataResidencyRule where
  orgId : String
  region : String
  dataTypes : List String
  restrictions : RuleRestrictions
deriving DecidableEq

/-- The classification level `'public' | 'internal' | 'confidential' | 'restricted'`. -/
inductive ClassLevel where
  | publicLevel
  | internal
  | confidential
  | restricted
deriving DecidableEq

/-- A `DataClassification`. -/
structure DataClassification where
  level : ClassLevel
  categories : List String
  personalData : Bool
  financialData : Bool
  healthData : Bool
deriving DecidableEq

/-- The operation kind `'store' | 'process' | 'transfer'` (accepted but not
inspected by `validateDataOperation`). -/
inductive Operation where
  | store
  | process
  | transfer
deriving DecidableEq

/-- The result of `validateDataOperation`. -/
structure ValidationResult where
  allowed : Bool
  reason : Option String
  requirements : List String
deriving DecidableEq

/-- The built-in EU/GDPR rule. -/
def euRule : DataResidencyRule :=
  ⟨"*", "EU", ["personal", "financial", "health"],
    ⟨["EU", "EEA"], ["US", "CN", "RU"], true, 2555⟩⟩

/-- The built-in US rule. -/
def usRule : DataResidencyRule :=
  ⟨"*", "US", ["financial", "health"],
    ⟨["US", "CA"], ["CN", "RU", "IR"], true, 2555⟩⟩

/-- The built-in financial-services rule. -/
def financialRule : DataResidencyRule :=
  ⟨"*", "GLOBAL", ["financial", "trading", "risk"],
    ⟨["US", "EU", "UK", "CA", "AU", "SG"], ["CN", "RU", "IR", "KP"], true, 2555⟩⟩

/-- The rule registry (a JS `Map`, which iterates in insertion order),
modelled as an association list. `initializeDefaultRules` seeds it with the
EU, US and FINANCIAL rules in that order. -/
def defaultRegistry : List (String × DataResidencyRule) :=
  [("EU", euRule), ("US", usRule), ("FINANCIAL", financialRule)]

/-- `Map.set` under JS semantics: overwrite in place when the key exists,
otherwise append. -/
def registrySet (registry : List (String × DataResidencyRule)) (key : String)
    (rule : DataResidencyRule) : List (String × DataResidencyRule) :=
  if registry.any (fun kv => decide (kv.1 = key)) then
    registry.map (fun kv => if kv.1 = key then (key, rule) else kv)
  else
    registry ++ [(key, rule)]

/-- `DataResidencyService.registerOrgRules`. -/
def registerOrgRules (registry : List (String × DataResidencyRule)) (orgId : String)
    (rules : DataResidencyRule) : List (String × DataResidencyRule) :=
  registrySet registry ("ORG_" ++ orgId) rules

/-- `Map.get`. -/
def lookupRegistry (registry : List (String × DataResidencyRule)) (key : String) :
    Option DataResidencyRule :=
  match registry.find? (fun kv => decide (kv.1 = key)) with
  | some kv => some kv.2
  | none => none

/-- `String.prototype.startsWith`. -/
def strStartsWith (s pre : String) : Bool := pre.data.isPrefixOf s.data

/-- `DataResidencyService.matchesClassification`. -/
def matchesClassification (rule : DataResidencyRule) (c : DataClassification) : Bool :=
  (c.financialData && decide ("financial" ∈ rule.dataTypes))
  || (c.personalData && decide ("personal" ∈ rule.dataTypes))
  || (c.healthData && decide ("health" ∈ rule.dataTypes))

/-- `DataResidencyService.getApplicableRules`: the org-specific rule first
(when its data-type list includes `dataType`), then every global (non-ORG_)
rule whose data types include `dataType` or that matches the classification,
in registry insertion order. -/
def getApplicableRules (registry : List (String × DataResidencyRule))
    (orgId dataType : String) (c : DataClassification) : List DataResidencyRule :=
  (match lookupRegistry registry ("ORG_" ++ orgId) with
   | some r => if dataType ∈ r.dataTypes then [r] else []
   | none => []) ++
  ((registry.filter (fun kv =>
      !(strStartsWith kv.1 "ORG_")
      && (decide (dataType ∈ kv.2.dataTypes) || matchesClassification kv.2 c))).map
    (fun kv => kv.2))

/-- `Array.prototype.join(', ')`. -/
def joinComma : List String → String
  | [] => ""
  | [s] => s
  | s :: rest => s ++ ", " ++ joinComma rest

/-- The denial reason produced by the prohibited-regions branch. -/
def prohibitedMessage (targetRegion : String) (rule : DataResidencyRule) : String :=
  "Data transfer to " ++ targetRegion ++ " is prohibited by " ++ rule.region
    ++ " regulations"

/-- The denial reason produced by the allowed-regions branch. -/
def allowedMessage (targetRegion : String) (rule : DataResidencyRule) : String :=
  "Data transfer to " ++ targetRegion ++ " is not in allowed regions: "
    ++ joinComma rule.restrictions.allowedRegions

/-- A rule neither prohibits the target region nor restricts it away through
a non-empty allowed-regions list; the denial loop falls through such rules. -/
abbrev rulePasses (targetRegion : String) (r : DataResidencyRule) : Prop :=
  targetRegion ∉ r.restrictions.prohibitedRegions ∧
    (r.restrictions.allowedRegions = [] ∨ targetRegion ∈ r.restrictions.allowedRegions)

/-- The denial loop of `validateDataOperation`: for each applicable rule in
order, first the prohibited-regions check, then the allowed-regions check;
the first rule to trigger either check produces the verdict. -/
def denyCheck (targetRegion : String) : List DataResidencyRule → Option ValidationResult
  | [] => none
  | r :: rest =>
    if targetRegion ∈ r.restrictions.prohibitedRegions then
      some ⟨false, some (prohibitedMessage targetRegion r), []⟩
    else if r.restrictions.allowedRegions ≠ [] ∧
        targetRegion ∉ r.restrictions.allowedRegions then
      some ⟨false, some (allowedMessage targetRegion r), []⟩
    else
      denyCheck targetRegion rest

/-- The requirement strings pushed for one rule in the requirements loop. -/
def ruleRequirements (c : DataClassification) (r : DataResidencyRule) : List String :=
  (if r.restrictions.requiresEncryption
    then ["Data must be encrypted at rest and in transit"] else [])
  ++ (if c.personalData
    then ["Personal data processing requires explicit consent"] else [])
  ++ (if c.level = ClassLevel.restricted
    then ["Restricted data requires additional access controls"] else [])

/-- Deduplication via `[...new Set(xs)]`: keeps first occurrences in order. -/
def dedupAux (seen : List String) : List String → List String
  | [] => []
  | s :: rest => if s ∈ seen then dedupAux seen rest else s :: dedupAux (s :: seen) rest

/-- `[...new Set(xs)]`. -/
def dedupFirst (l : List String) : List String := dedupAux [] l

/-- The body of the `try` block of `validateDataOperation`, applied to the
gathered applicable rules. -/
def validateBody (rules : List DataResidencyRule) (targetRegion : String)
    (c : DataClassification) : ValidationResult :=
  match denyCheck targetRegion rules with
  | some res => res
  | none => ⟨true, none, dedupFirst ((rules.map (ruleRequirements c)).flatten)⟩

/-- The fail-closed result returned by the catch block of
`validateDataOperation`. -/
def failClosedResult : ValidationResult :=
  ⟨false, some "Data residency validation failed", []⟩

/-- `validateDataOperation` with the outcome of the rule gathering (the part
of the `try` body that can throw) made explicit: an `Except.error` models an
exception thrown while gathering or applying rules, which the catch block
turns into the fail-closed verdict. -/
def validateDataOperationE (rulesResult : Except String (List DataResidencyRule))
    (_op : Operation) (targetRegion : String) (c : DataClassification) :
    ValidationResult :=
  match rulesResult with
  | Except.ok rules => validateBody rules targetRegion c
  | Except.error _ => failClosedResult

/-- `DataResidencyService.validateDataOperation` on the normal (non-throwing)
path. -/
def validateDataOperation (registry : List (String × DataResidencyRule))
    (orgId dataType : String) (op : Operation) (targetRegion : String)
    (c : DataClassification) : ValidationResult :=
  validateDataOperationE (Except.ok (getApplicableRules registry orgId dataType c))
    op targetRegion c

/-- The classification `{level:'internal', categories:[dataType], false,
false, false}` built inside `getRetentionPeriod`. -/
def retentionClassification (dataType : String) : DataClassification :=
  ⟨ClassLevel.internal, [dataType], false, false, false⟩

/-- `DataResidencyService.getRetentionPeriod`: the minimum
`retentionPeriodDays` over the applicable rules (`Math.min`), or the 2555-day
default when no rule applies. -/
def getRetentionPeriod (registry : List (String × DataResidencyRule))
    (orgId dataType : String) : Nat :=
  match getApplicableRules registry orgId dataType (retentionClassification dataType) with
  | [] => 2555
  | r :: rest =>
    (rest.map (fun x => x.restrictions.retentionPeriodDays)).foldl Nat.min
      r.restrictions.retentionPeriodDays

/-! ## DataClassifier (`classifyData` / `hasField`) -/

/-! A structured JS payload value. Objects and arrays carry their own spine
types so that the recursion in `hasField` is structural. -/
mutual
inductive JsonVal where
  | str (s : String)
  | num (n : Int)
  | boolVal (b : Bool)
  | null
  | obj (fields : JsonFields)
  | arr (elems : JsonElems)

inductive JsonFields where
  | nil
  | cons (key : String) (val : JsonVal) (rest : JsonFields)

inductive JsonElems where
  | nil
  | cons (val : JsonVal) (rest : JsonElems)
end

/-- `typeof v === 'object' && v !== null` (arrays are objects in JS). -/
def isObjectLike : JsonVal → Bool
  | JsonVal.obj _ => true
  | JsonVal.arr _ => true
  | _ => false

/-- ASCII lower-casing of one character (`String.prototype.toLowerCase` on
the ASCII range, which covers every keyword the service searches for). -/
def charLower (c : Char) : Char :=
  if 65 ≤ c.toNat ∧ c.toNat ≤ 90 then Char.ofNat (c.toNat + 32) else c

/-- `String.prototype.toLowerCase`. -/
def strToLower (s : String) : String := String.mk (s.data.map charLower)

/-- Substring containment on character lists (`String.prototype.includes`). -/
def charListContains (needle : List Char) : List Char → Bool
  | [] => needle.isEmpty
  | c :: rest => needle.isPrefixOf (c :: rest) || charListContains needle rest

/-- `s.includes(sub)`. -/
def strIncludes (s sub : String) : Bool := charListContains sub.data s.data

/-- Decimal digits of `n`, most significant first; fuel-structured (`n`
itself suffices as fuel). -/
def natDigitsAux : Nat → Nat → List Char
  | _, 0 => []
  | 0, _ + 1 => []
  | fuel + 1, n + 1 => natDigitsAux fuel ((n + 1) / 10) ++ [Char.ofNat (48 + (n + 1) % 10)]

/-- `String(n)` for a natural number: the object key of an array index under
`Object.entries`. -/
def natToString (n : Nat) : String :=
  if n = 0 then "0" else String.mk (natDigitsAux n n)

/-! `DataResidencyService.hasField`: does the payload contain, at any
nesting depth, a field whose lower-cased name contains the lower-cased
keyword as a substring? Non-objects have no fields; `Object.entries` of an
array yields the decimal index strings as keys. -/
mutual
def hasField : JsonVal → String → Bool
  | JsonVal.obj fs, field => hasFieldFields fs field
  | JsonVal.arr es, field => hasFieldElems es 0 field
  | _, _ => false

def hasFieldFields : JsonFields → String → Bool
  | JsonFields.nil, _ => false
  | JsonFields.cons k v rest, field =>
    strIncludes (strToLower k) (strToLower field)
    || (isObjectLike v && hasField v field)
    || hasFieldFields rest field

def hasFieldElems : JsonElems → Nat → String → Bool
  | JsonElems.nil, _, _ => false
  | JsonElems.cons v rest, i, field =>
    strIncludes (strToLower (natToString i)) (strToLower field)
    || (isObjectLike v && hasField v field)
    || hasFieldElems rest (i + 1) field
end

/-- The personal-identifier keyword set of `classifyData`. -/
def personalFields : List String := ["email", "phone", "ssn", "passport", "name", "address"]

/-- The financial keyword set of `classifyData`. -/
def financialFields : List String := ["account", "balance", "transaction", "payment", "credit", "portfolio"]

/-- The health keyword set of `classifyData`. -/
def healthFields : List String := ["medical", "diagnosis", "treatment", "prescription", "health"]

/-- The risk/security keyword set of `classifyData`. -/
def riskFields : List String := ["vulnerability", "threat", "incident", "breach", "attack"]

/-- `DataResidencyService.classifyData`. Each keyword loop breaks on its
first hit and always performs the same assignments, so a loop is equivalent
to an existence check over its keyword set; the level updates are applied in
source order (personal, financial, health, risk), the risk check raising the
level only from `internal`. -/
def classifyData (data : JsonVal) : DataClassification :=
  let personal := personalFields.any (fun f => hasField data f)
  let financial := financialFields.any (fun f => hasField data f)
  let health := healthFields.any (fun f => hasField data f)
  let risk := riskFields.any (fun f => hasField data f)
  let level1 := if personal then ClassLevel.confidential else ClassLevel.internal
  let level2 := if financial then ClassLevel.confidential else level1
  let level3 := if health then ClassLevel.restricted else level2
  let level4 := if risk && decide (level3 = ClassLevel.internal)
    then ClassLevel.confidential else level3
  ⟨level4,
    ((if personal then ["personal"] else []) ++ (if financial then ["financial"] else []))
      ++ ((if health then ["health"] else []) ++ (if risk then ["security"] else [])),
    personal, financial, health⟩

/-! ## Concrete test inputs -/

/-- An all-false classification with no categories. -/
def emptyClassification : DataClassification :=
  ⟨ClassLevel.internal, [], false, false, false⟩

/-- A tenant-specific rule with a 365-day retention period. -/
def acmeRule : DataResidencyRule :=
  ⟨"acme", "ACME", ["financial"], ⟨[], [], false, 365⟩⟩

/-- The registry after registering `acmeRule` for tenant "acme". -/
def registryWithAcme : List (String × DataResidencyRule) :=
  registerOrgRules defaultRegistry "acme" acmeRule

/-- A payload holding both a health field and a financial field. -/
def diagnosisPayload : JsonVal :=
  JsonVal.obj (JsonFields.cons "diagnosis" (JsonVal.str "flu")
    (JsonFields.cons "balance" (JsonVal.num 100) JsonFields.nil))

/-- A concrete audit input with empty details. -/
def auditInputW : AuditInput := ⟨"u", "o", "a", "rt", "ri", [], "ip", "ua"⟩

/-- The audit entry `logAction` constructs from `auditInputW` at time 0 under
HMAC secret "s". -/
def auditEntryW : AuditLogEntry :=
  ⟨"u", "o", "a", "rt", "ri", AuditDetails.plain [], "ip", "ua", 0,
    some (hmacBytes "s" (dataToSign "u" "o" "a" "rt" "ri" 0))⟩

/-- `auditEntryW` with the userId mutated after signing, signature kept. -/
def tamperedEntryW : AuditLogEntry :=
  ⟨"x", "o", "a", "rt", "ri", AuditDetails.plain [], "ip", "ua", 0,
    auditEntryW.signature⟩

/-! ## Encoding lemmas -/

theorem char_toNat_lt_strB (c : Char) : c.toNat < strB := by
  rcases c.valid with h | ⟨_, h2⟩
  · have h' : c.val.toNat < 55296 := by
      simpa [UInt32.lt_def, BitVec.lt_def] using h
    exact Nat.lt_trans h' (by simp [strB])
  · have h' : c.val.toNat < 1114112 := by
      simpa [UInt32.lt_def, BitVec.lt_def] using h2
    simpa [strB] using h'

theorem char_toNat_injective : Function.Injective Char.toNat := by
  intro a b h
  have h2 := congrArg Char.ofNat h
  simpa [Char.ofNat_toNat] using h2

theorem toNat_charOfNat {n : Nat} (h : n.isValidChar) : (Char.ofNat n).toNat = n := by
  rw [Char.ofNat, dif_pos h]
  rfl

theorem strB_pos : 0 < strB := by simp [strB]

theorem decodeCodes_encodeCodes :
    ∀ l : List Nat, (∀ c ∈ l, c < strB) → decodeCodes (encodeCodes l) = l := by
  intro l
  induction l with
  | nil => intro _; simp [encodeCodes, decodeCodes]
  | cons c rest ih =>
    intro hb
    have hc : c < strB := hb c (List.mem_cons_self c rest)
    have heq : encodeCodes (c :: rest) = (c + strB * encodeCodes rest) + 1 := by
      simp only [encodeCodes]
      omega
    rw [heq, decodeCodes]
    have h1 : (c + strB * encodeCodes rest) % strB = c := by
      rw [Nat.add_mul_mod_self_left, Nat.mod_eq_of_lt hc]
    have h2 : (c + strB * encodeCodes rest) / strB = encodeCodes rest := by
      rw [Nat.mul_comm strB (encodeCodes rest), Nat.add_mul_div_right _ _ strB_pos,
        Nat.div_eq_of_lt hc, Nat.zero_add]
    rw [h1, h2, ih (fun x hx => hb x (List.mem_cons_of_mem c hx))]

theorem encodeString_injective : Function.Injective encodeString := by
  intro s t h
  unfold encodeString at h
  have hs : ∀ c ∈ s.data.map Char.toNat, c < strB := by
    intro c hc
    rcases List.mem_map.mp hc with ⟨ch, _, rfl⟩
    exact char_toNat_lt_strB ch
  have ht : ∀ c ∈ t.data.map Char.toNat, c < strB := by
    intro c hc
    rcases List.mem_map.mp hc with ⟨ch, _, rfl⟩
    exact char_toNat_lt_strB ch
  have h2 := congrArg decodeCodes h
  rw [decodeCodes_encodeCodes _ hs, decodeCodes_encodeCodes _ ht] at h2
  have hdata : s.data = t.data := List.map_injective_iff.mpr char_toNat_injective h2
  calc s = String.mk s.data := rfl
    _ = String.mk t.data := congrArg String.mk hdata
    _ = t := rfl

theorem charB_big : 1 < charB := by simp [charB]

theorem charsToNat_natToCharsAux :
    ∀ fuel n, n ≤ fuel → charsToNat (natToCharsAux fuel n) = n := by
  intro fuel
  induction fuel with
  | zero =>
    intro n hn
    have h0 : n = 0 := Nat.le_zero.mp hn
    subst h0
    rfl
  | succ fuel ih =>
    intro n hn
    match n with
    | 0 => rfl
    | m + 1 =>
      rw [natToCharsAux, charsToNat]
      have hmod : (m + 1) % charB < charB := Nat.mod_lt _ (Nat.lt_of_lt_of_le Nat.zero_lt_one (Nat.le_of_lt charB_big))
      have hvalid : ((m + 1) % charB).isValidChar := Or.inl (by simpa [charB] using hmod)
      rw [toNat_charOfNat hvalid]
      have hq : (m + 1) / charB ≤ fuel := by
        have hlt : (m + 1) / charB < m + 1 := Nat.div_lt_self (Nat.succ_pos m) charB_big
        omega
      rw [ih _ hq]
      exact Nat.mod_add_div (m + 1) charB

theorem natToChars_injective : Function.Injective natToChars := by
  intro a b h
  have ha := charsToNat_natToCharsAux a a (Nat.le_refl a)
  have hb := charsToNat_natToCharsAux b b (Nat.le_refl b)
  have hdata : natToCharsAux a a = natToCharsAux b b := congrArg String.data h
  rw [← ha, ← hb, hdata]

theorem encodeListNat_injective : Function.Injective encodeListNat := by
  intro l1
  induction l1 with
  | nil =>
    intro l2 h
    cases l2 with
    | nil => rfl
    | cons b m => simp [encodeListNat] at h
  | cons a l ih =>
    intro l2 h
    cases l2 with
    | nil => simp [encodeListNat] at h
    | cons b m =>
      simp only [encodeListNat, Nat.add_right_cancel_iff] at h
      obtain ⟨h1, h2⟩ := Nat.pair_eq_pair.mp h
      rw [h1, ih h2]

theorem dataToSign_injective {u o a rt ri u' o' a' rt' ri' : String} {ts ts' : Nat}
    (h : dataToSign u o a rt ri ts = dataToSign u' o' a' rt' ri' ts') :
    u = u' ∧ o = o' ∧ a = a' ∧ rt = rt' ∧ ri = ri' ∧ ts = ts' := by
  unfold dataToSign at h
  have h1 := natToChars_injective h
  obtain ⟨e1, h1⟩ := Nat.pair_eq_pair.mp h1
  obtain ⟨e2, h1⟩ := Nat.pair_eq_pair.mp h1
  obtain ⟨e3, h1⟩ := Nat.pair_eq_pair.mp h1
  obtain ⟨e4, h1⟩ := Nat.pair_eq_pair.mp h1
  obtain ⟨e5, e6⟩ := Nat.pair_eq_pair.mp h1
  exact ⟨encodeString_injective e1, encodeString_injective e2, encodeString_injective e3,
    encodeString_injective e4, encodeString_injective e5, e6⟩

/-! ## Encryption lemmas -/

theorem gcmDecryptBytes_gcmEncryptBytes (key : Nat) (P : String) :
    gcmDecryptBytes key (gcmEncryptBytes key P) = P := by
  unfold gcmDecryptBytes gcmEncryptBytes
  rw [List.map_map]
  have hcomp : (fun b => Char.ofNat (b - key)) ∘ (fun c : Char => key + c.toNat)
      = fun c : Char => c := by
    funext c
    simp [Nat.add_sub_cancel_left, Char.ofNat_toNat]
  rw [hcomp]
  simp

theorem tagBytes_eq_iff_aad {key : Nat} {aad aad' : String} {ct : List Nat} :
    tagBytes key aad' ct = tagBytes key aad ct ↔ aad' = aad := by
  constructor
  · intro h
    have h0 : gcmTag key aad' ct = gcmTag key aad ct := by
      simpa [tagBytes] using h
    unfold gcmTag at h0
    obtain ⟨-, h0⟩ := Nat.pair_eq_pair.mp h0
    obtain ⟨h1, -⟩ := Nat.pair_eq_pair.mp h0
    exact encodeString_injective h1
  · intro h
    rw [h]

theorem tagBytes_length (key : Nat) (aad : String) (ct : List Nat) :
    (tagBytes key aad ct).length = 16 := by
  simp [tagBytes]

theorem decrypt_parts (masterKey : String) (salt iv tag ct : List Nat)
    (org' : Option String) (hs : salt.length = 16) (hiv : iv.length = 16)
    (ht : tag.length = 16) :
    decrypt masterKey (salt ++ iv ++ tag ++ ct) org' =
      if tag = tagBytes (deriveKey masterKey salt) (org'.getD "global") ct then
        Except.ok (gcmDecryptBytes (deriveKey masterKey salt) ct)
      else
        Except.error "Decryption failed: Unsupported state or unable to authenticate data" := by
  have h16 : (salt ++ (iv ++ (tag ++ ct))).take 16 = salt := List.take_left' hs
  have hd32 : (salt ++ (iv ++ (tag ++ ct))).drop 32 = tag ++ ct := by
    rw [← List.append_assoc]
    exact List.drop_left' (by rw [List.length_append, hs, hiv])
  have h32 : ((salt ++ (iv ++ (tag ++ ct))).drop 32).take 16 = tag := by
    rw [hd32]
    exact List.take_left' ht
  have h48 : (salt ++ (iv ++ (tag ++ ct))).drop 48 = ct := by
    have hassoc : salt ++ (iv ++ (tag ++ ct)) = (salt ++ (iv ++ tag)) ++ ct := by
      simp [List.append_assoc]
    rw [hassoc]
    exact List.drop_left' (by simp [hs, hiv, ht])
  simp only [decrypt, List.append_assoc]
  rw [h16, h32, h48]

theorem decrypt_encrypt_eq (masterKey : String) (salt iv : List Nat) (P : String)
    (org org' : Option String) (hs : salt.length = 16) (hiv : iv.length = 16) :
    decrypt masterKey (encrypt masterKey salt iv P org) org' =
      if org'.getD "global" = org.getD "global" then Except.ok P
      else Except.error "Decryption failed: Unsupported state or unable to authenticate data" := by
  unfold encrypt
  rw [decrypt_parts masterKey salt iv _ _ org' hs hiv
    (tagBytes_length (deriveKey masterKey salt) (org.getD "global")
      (gcmEncryptBytes (deriveKey masterKey salt) P))]
  by_cases h : org'.getD "global" = org.getD "global"
  · rw [if_pos h, if_pos (tagBytes_eq_iff_aad.mpr h.symm),
      gcmDecryptBytes_gcmEncryptBytes]
  · rw [if_neg h, if_neg (fun hc => h (tagBytes_eq_iff_aad.mp hc).symm)]

/-! ## HMAC and audit lemmas -/

theorem hmacBytes_length (secret data : String) : (hmacBytes secret data).length = 32 := by
  simp [hmacBytes]

theorem hmacBytes_data_injective {secret d d' : String}
    (h : hmacBytes secret d = hmacBytes secret d') : d = d' := by
  unfold hmacBytes at h
  have h0 : Nat.pair (encodeString secret) (encodeString d)
      = Nat.pair (encodeString secret) (encodeString d') := by
    simpa using h
  exact encodeString_injective (Nat.pair_eq_pair.mp h0).2

theorem verifyHMAC_self (secret data : String) :
    verifyHMAC (some secret) data (hmacBytes secret data) = Except.ok true := by
  simp [verifyHMAC, createHMAC, timingSafeEqual]

theorem verifyHMAC_of_ne (secret data : String) {sig : List Nat}
    (hlen : sig.length = 32) (hne : sig ≠ hmacBytes secret data) :
    verifyHMAC (some secret) data sig = Except.ok false := by
  simp [verifyHMAC, createHMAC, timingSafeEqual, hlen, hmacBytes_length, hne]

theorem verifyHMAC_length_error (secret data : String) {sig : List Nat}
    (hlen : sig.length ≠ 32) :
    verifyHMAC (some secret) data sig
      = Except.error "Input buffers must have the same byte length" := by
  have h32 := hmacBytes_length secret data
  simp only [verifyHMAC, createHMAC, timingSafeEqual, h32]
  rw [if_neg hlen]

theorem buildAuditEntry_ok {sec : String} {masterKey : Option String}
    {salt iv : List Nat} {now : Nat} {e : AuditInput} {entry : AuditLogEntry}
    (h : buildAuditEntry (some sec) masterKey salt iv now e = Except.ok entry) :
    entry.userId = e.userId ∧ entry.orgId = e.orgId ∧ entry.action = e.action ∧
    entry.resourceType = e.resourceType ∧ entry.resourceId = e.resourceId ∧
    entry.timestamp = now ∧
    entry.signature = some (hmacBytes sec
      (dataToSign e.userId e.orgId e.action e.resourceType e.resourceId now)) := by
  simp only [buildAuditEntry, createHMAC] at h
  by_cases hd : e.details.isEmpty
  · rw [if_pos hd] at h
    obtain rfl := (Except.ok.injEq _ _).mp h
    exact ⟨rfl, rfl, rfl, rfl, rfl, rfl, rfl⟩
  · rw [if_neg hd] at h
    cases masterKey with
    | none => simp [encryptE] at h
    | some k =>
      simp only [encryptE] at h
      obtain rfl := (Except.ok.injEq _ _).mp h
      exact ⟨rfl, rfl, rfl, rfl, rfl, rfl, rfl⟩

/-! ## Residency lemmas -/

theorem denyCheck_cons_pass {targetRegion : String} {r : DataResidencyRule}
    (rest : List DataResidencyRule) (h : rulePasses targetRegion r) :
    denyCheck targetRegion (r :: rest) = denyCheck targetRegion rest := by
  rw [denyCheck, if_neg h.1, if_neg (fun hc => hc.2 (h.2.resolve_left hc.1))]

theorem denyCheck_append_pass {targetRegion : String} {rules1 : List DataResidencyRule}
    (rest : List DataResidencyRule) (h : ∀ r ∈ rules1, rulePasses targetRegion r) :
    denyCheck targetRegion (rules1 ++ rest) = denyCheck targetRegion rest := by
  induction rules1 with
  | nil => rfl
  | cons r rs ih =>
    rw [List.cons_append, denyCheck_cons_pass _ (h r (List.mem_cons_self r rs)),
      ih (fun x hx => h x (List.mem_cons_of_mem r hx))]

theorem denyCheck_cons_prohibited {targetRegion : String} {r : DataResidencyRule}
    (rest : List DataResidencyRule) (h : targetRegion ∈ r.restrictions.prohibitedRegions) :
    denyCheck targetRegion (r :: rest)
      = some ⟨false, some (prohibitedMessage targetRegion r), []⟩ := by
  unfold denyCheck
  rw [if_pos h]

theorem denyCheck_denies_of_prohibited {targetRegion : String} :
    ∀ {rules : List DataResidencyRule},
    (∃ r ∈ rules, targetRegion ∈ r.restrictions.prohibitedRegions) →
    ∃ res, denyCheck targetRegion rules = some res ∧ res.allowed = false := by
  intro rules
  induction rules with
  | nil =>
    rintro ⟨r, hr, -⟩
    exact absurd hr (List.not_mem_nil r)
  | cons r rs ih =>
    rintro ⟨r', hr', hproh⟩
    by_cases h1 : targetRegion ∈ r.restrictions.prohibitedRegions
    · exact ⟨_, denyCheck_cons_prohibited rs h1, rfl⟩
    · by_cases h2 : r.restrictions.allowedRegions ≠ [] ∧
          targetRegion ∉ r.restrictions.allowedRegions
      · refine ⟨⟨false, some (allowedMessage targetRegion r), []⟩, ?_, rfl⟩
        rw [denyCheck, if_neg h1, if_pos h2]
      · have hpass : rulePasses targetRegion r := by
          refine ⟨h1, ?_⟩
          by_cases he : r.restrictions.allowedRegions = []
          · exact Or.inl he
          · refine Or.inr ?_
            by_contra hnm
            exact h2 ⟨he, hnm⟩
        rw [denyCheck_cons_pass rs hpass]
        rcases List.mem_cons.mp hr' with rfl | hr''
        · exact absurd hproh h1
        · exact ih ⟨r', hr'', hproh⟩

theorem validateBody_of_denyCheck_some {rules : List DataResidencyRule}
    {targetRegion : String} {c : DataClassification} {res : ValidationResult}
    (h : denyCheck targetRegion rules = some res) :
    validateBody rules targetRegion c = res := by
  unfold validateBody
  rw [h]

theorem getRetentionPeriod_nil {registry : List (String × DataResidencyRule)}
    {orgId dataType : String}
    (h : getApplicableRules registry orgId dataType (retentionClassification dataType) = []) :
    getRetentionPeriod registry orgId dataType = 2555 := by
  unfold getRetentionPeriod
  rw [h]

theorem getRetentionPeriod_cons {registry : List (String × DataResidencyRule)}
    {orgId dataType : String} {r0 : DataResidencyRule} {rest : List DataResidencyRule}
    (h : getApplicableRules registry orgId dataType (retentionClassification dataType)
      = r0 :: rest) :
    getRetentionPeriod registry orgId dataType
      = (rest.map (fun x => x.restrictions.retentionPeriodDays)).foldl Nat.min
          r0.restrictions.retentionPeriodDays := by
  unfold getRetentionPeriod
  rw [h]

theorem foldl_min_le_init : ∀ (l : List Nat) (a : Nat), l.foldl Nat.min a ≤ a := by
  intro l
  induction l with
  | nil => intro a; exact Nat.le_refl a
  | cons b m ih => intro a; exact Nat.le_trans (ih (Nat.min a b)) (Nat.min_le_left a b)

theorem foldl_min_le_mem : ∀ (l : List Nat) (a x : Nat), x ∈ l → l.foldl Nat.min a ≤ x := by
  intro l
  induction l with
  | nil =>
    intro a x hx
    exact absurd hx (List.not_mem_nil x)
  | cons b m ih =>
    intro a x hx
    rcases List.mem_cons.mp hx with rfl | hx'
    · exact Nat.le_trans (foldl_min_le_init m (Nat.min a x)) (Nat.min_le_right a x)
    · exact ih (Nat.min a b) x hx'

theorem foldl_min_mem : ∀ (l : List Nat) (a : Nat),
    l.foldl Nat.min a = a ∨ l.foldl Nat.min a ∈ l := by
  intro l
  induction l with
  | nil => intro a; exact Or.inl rfl
  | cons b m ih =>
    intro a
    rcases ih (Nat.min a b) with h | h
    · by_cases hab : a ≤ b
      · left
        rw [List.foldl_cons, h]
        exact Nat.min_eq_left hab
      · right
        have hb : Nat.min a b = b := Nat.min_eq_right (Nat.le_of_not_le hab)
        rw [List.foldl_cons, h, hb]
        exact List.mem_cons_self b m
    · right
      exact List.mem_cons_of_mem b h

/-! ## Claim theorems -/

set_option maxRecDepth 4000

/-- Claim C1: for every plaintext P and tenant tag T, with the master
encryption secret configured (and the two fresh 16-byte random draws of an
encrypt call), decrypt(encrypt(P, T), T) returns P. -/
theorem decrypt_encrypt_roundtrip (masterKey P T : String) (salt iv : List Nat)
    (hs : salt.length = 16) (hiv : iv.length = 16) :
    decrypt masterKey (encrypt masterKey salt iv P (some T)) (some T) = Except.ok P := by
  rw [decrypt_encrypt_eq masterKey salt iv P (some T) (some T) hs hiv, if_pos rfl]

/-- Witness for C1 at concrete inputs. -/
theorem decrypt_encrypt_roundtrip_witness :
    decrypt "k" (encrypt "k" (List.replicate 16 0) (List.replicate 16 1) "p" (some "org-A"))
      (some "org-A") = Except.ok "p" :=
  decrypt_encrypt_roundtrip "k" "p" "org-A" (List.replicate 16 0) (List.replicate 16 1)
    (by decide) (by decide)

/-- Claim C2 (refuting evaluation): flipping the blob byte at index 16 — the
first byte of the stored nonce/IV region — changes the blob, yet decrypt with
the same tenant tag still succeeds and returns the original plaintext,
because the cipher state built by createCipher never uses the stored IV. The
claim demands that every single-byte flip make decrypt fail. -/
theorem decrypt_flipped_iv_succeeds :
    (encrypt "k" (List.replicate 16 0) (List.replicate 16 0) "hi" (some "org-A")).set 16 1
      ≠ encrypt "k" (List.replicate 16 0) (List.replicate 16 0) "hi" (some "org-A")
    ∧ decrypt "k"
        ((encrypt "k" (List.replicate 16 0) (List.replicate 16 0) "hi" (some "org-A")).set 16 1)
        (some "org-A") = Except.ok "hi" :=
  ⟨by decide, by decide⟩

/-- Claim C3: decrypting a blob produced under tenant "org-A" with tenant
"org-B" fails with the uniform decryption error, through the associated-data
binding of the tag, despite identical key material. -/
theorem decrypt_cross_tenant_fails (masterKey P : String) (salt iv : List Nat)
    (hs : salt.length = 16) (hiv : iv.length = 16) :
    decrypt masterKey (encrypt masterKey salt iv P (some "org-A")) (some "org-B")
      = Except.error "Decryption failed: Unsupported state or unable to authenticate data" := by
  rw [decrypt_encrypt_eq masterKey salt iv P (some "org-A") (some "org-B") hs hiv,
    if_neg (by decide)]

/-- Witness for C3 at concrete inputs. -/
theorem decrypt_cross_tenant_fails_witness :
    decrypt "k" (encrypt "k" (List.replicate 16 0) (List.replicate 16 0) "p" (some "org-A"))
      (some "org-B")
      = Except.error "Decryption failed: Unsupported state or unable to authenticate data" :=
  decrypt_cross_tenant_fails "k" "p" (List.replicate 16 0) (List.replicate 16 0)
    (by decide) (by decide)

/-- Claim C4: logAction returns normally for every input entry and every
behaviour of the injected store and of the signer/cipher configuration —
every failure inside is caught and swallowed. -/
theorem logAction_never_throws (store : AuditLogEntry → Except String Unit)
    (hmacSecret masterKey : Option String) (salt iv : List Nat) (now : Nat)
    (e : AuditInput) :
    logAction store hmacSecret masterKey salt iv now e = Except.ok () := by
  unfold logAction
  cases buildAuditEntry hmacSecret masterKey salt iv now e with
  | error msg => rfl
  | ok entry =>
    show (match store entry with
          | Except.ok _ => Except.ok ()
          | Except.error _ => Except.ok ()) = Except.ok ()
    cases store entry <;> rfl

/-- Claim C5: for every audit record as constructed and signed by logAction,
verifyAuditEntry returns true on the unmodified record, and false on any
record in which at least one of the six signed fields (userId, orgId,
action, resourceType, resourceId, timestamp) changed while the signature is
unchanged. -/
theorem auditEntry_signature_verification (sec : String) (masterKey : Option String)
    (salt iv : List Nat) (now : Nat) (e : AuditInput) (entry tampered : AuditLogEntry)
    (hbuild : buildAuditEntry (some sec) masterKey salt iv now e = Except.ok entry)
    (hsig : tampered.signature = entry.signature)
    (hdiff : ¬(tampered.userId = entry.userId ∧ tampered.orgId = entry.orgId ∧
      tampered.action = entry.action ∧ tampered.resourceType = entry.resourceType ∧
      tampered.resourceId = entry.resourceId ∧ tampered.timestamp = entry.timestamp)) :
    verifyAuditEntry (some sec) entry = true ∧
    verifyAuditEntry (some sec) tampered = false := by
  obtain ⟨hu, ho, ha, hrt, hri, hts, hsg⟩ := buildAuditEntry_ok hbuild
  constructor
  · simp [verifyAuditEntry, hsg, hu, ho, ha, hrt, hri, hts, verifyHMAC_self]
  · have hsig' : tampered.signature = some (hmacBytes sec
        (dataToSign e.userId e.orgId e.action e.resourceType e.resourceId now)) := by
      rw [hsig, hsg]
    have hdd : dataToSign tampered.userId tampered.orgId tampered.action
        tampered.resourceType tampered.resourceId tampered.timestamp
        ≠ dataToSign e.userId e.orgId e.action e.resourceType e.resourceId now := by
      intro hEq
      obtain ⟨q1, q2, q3, q4, q5, q6⟩ := dataToSign_injective hEq
      exact hdiff ⟨q1.trans hu.symm, q2.trans ho.symm, q3.trans ha.symm,
        q4.trans hrt.symm, q5.trans hri.symm, q6.trans hts.symm⟩
    have hv : verifyHMAC (some sec)
        (dataToSign tampered.userId tampered.orgId tampered.action
          tampered.resourceType tampered.resourceId tampered.timestamp)
        (hmacBytes sec (dataToSign e.userId e.orgId e.action e.resourceType
          e.resourceId now)) = Except.ok false := by
      apply verifyHMAC_of_ne
      · exact hmacBytes_length sec _
      · intro hEq
        exact hdd (hmacBytes_data_injective hEq).symm
    simp [verifyAuditEntry, hsig', hv]

/-- Witness for C5: the concrete entry verifies; mutating its userId while
keeping the signature makes verification fail. -/
theorem auditEntry_signature_verification_witness :
    verifyAuditEntry (some "s") auditEntryW = true ∧
    verifyAuditEntry (some "s") tamperedEntryW = false :=
  auditEntry_signature_verification "s" (some "m") [] [] 0 auditInputW auditEntryW
    tamperedEntryW (by decide) rfl (by decide)

/-- Claim C6 counterexample: for tenant "org-1", data type "financial",
target region "IR" and an all-false classification, the applicable rules
include a rule prohibiting IR (the US rule), yet the returned denial reason
is the EU rule's allowed-regions message, not any prohibition message — the
prohibited check is not applied before the allowed check across all rules. -/
theorem validate_prohibited_reason_counterexample :
    (validateDataOperation defaultRegistry "org-1" "financial" Operation.transfer "IR"
      emptyClassification).allowed = false
    ∧ (∃ r ∈ getApplicableRules defaultRegistry "org-1" "financial" emptyClassification,
        "IR" ∈ r.restrictions.prohibitedRegions)
    ∧ ∀ r ∈ getApplicableRules defaultRegistry "org-1" "financial" emptyClassification,
        (validateDataOperation defaultRegistry "org-1" "financial" Operation.transfer "IR"
          emptyClassification).reason ≠ some (prohibitedMessage "IR" r) := by
  decide

/-- Claim C6 (amended): within each applicable rule the prohibited-region
check runs before the allowed-region check, and the verdict comes from the
first rule in application order that triggers either check; hence when every
earlier applicable rule passes both checks and some rule prohibits the
target region, evaluation denies with that rule's prohibition reason — even
when that same rule's allowed-region list would also exclude the region. -/
theorem validate_prohibited_first (registry : List (String × DataResidencyRule))
    (orgId dataType : String) (op : Operation) (targetRegion : String)
    (c : DataClassification) (rules1 : List DataResidencyRule)
    (rule : DataResidencyRule) (rules2 : List DataResidencyRule)
    (happ : getApplicableRules registry orgId dataType c = rules1 ++ rule :: rules2)
    (hpass : ∀ r ∈ rules1, rulePasses targetRegion r)
    (hproh : targetRegion ∈ rule.restrictions.prohibitedRegions) :
    validateDataOperation registry orgId dataType op targetRegion c
      = ⟨false, some (prohibitedMessage targetRegion rule), []⟩ := by
  have h1 : denyCheck targetRegion (getApplicableRules registry orgId dataType c)
      = some ⟨false, some (prohibitedMessage targetRegion rule), []⟩ := by
    rw [happ, denyCheck_append_pass _ hpass, denyCheck_cons_prohibited _ hproh]
  show validateBody (getApplicableRules registry orgId dataType c) targetRegion c = _
  exact validateBody_of_denyCheck_some h1

/-- Witness for C6: the EU rule is the first applicable rule for
"financial" and prohibits CN, so evaluation denies with its prohibition
reason. -/
theorem validate_prohibited_first_witness :
    validateDataOperation defaultRegistry "org-1" "financial" Operation.transfer "CN"
      emptyClassification
      = ⟨false, some (prohibitedMessage "CN" euRule), []⟩ :=
  validate_prohibited_first defaultRegistry "org-1" "financial" Operation.transfer "CN"
    emptyClassification [] euRule [usRule, financialRule] (by decide)
    (fun r hr => absurd hr (List.not_mem_nil r)) (by decide)

/-- Claim C7: every payload containing, at any nesting depth, a field whose
name case-insensitively contains "diagnosis" classifies as restricted with
healthData = true, whatever other fields (e.g. a financial "balance") are
present. -/
theorem classify_diagnosis_restricted (data : JsonVal)
    (h : hasField data "diagnosis" = true) :
    (classifyData data).level = ClassLevel.restricted ∧
    (classifyData data).healthData = true := by
  have hhealth : healthFields.any (fun f => hasField data f) = true :=
    List.any_eq_true.mpr ⟨"diagnosis", by simp [healthFields], h⟩
  constructor
  · simp [classifyData, hhealth]
  · simp [classifyData, hhealth]

/-- Witness for C7: a payload with both a "diagnosis" and a "balance" field
is restricted with healthData = true. -/
theorem classify_diagnosis_restricted_witness :
    hasField diagnosisPayload "diagnosis" = true ∧
    (classifyData diagnosisPayload).level = ClassLevel.restricted ∧
    (classifyData diagnosisPayload).healthData = true :=
  ⟨by decide, (classify_diagnosis_restricted diagnosisPayload (by decide)).1,
    (classify_diagnosis_restricted diagnosisPayload (by decide)).2⟩

/-- Claim C8: getRetentionPeriod returns the fixed fallback 2555 when no
rule applies, and otherwise the minimum retentionPeriodDays over the
applicable rules (it is a lower bound and is attained by some rule). -/
theorem getRetentionPeriod_spec (registry : List (String × DataResidencyRule))
    (orgId dataType : String) :
    (getApplicableRules registry orgId dataType (retentionClassification dataType) = [] →
      getRetentionPeriod registry orgId dataType = 2555)
    ∧ (∀ r ∈ getApplicableRules registry orgId dataType (retentionClassification dataType),
        getRetentionPeriod registry orgId dataType ≤ r.restrictions.retentionPeriodDays)
    ∧ (getApplicableRules registry orgId dataType (retentionClassification dataType) ≠ [] →
        ∃ r ∈ getApplicableRules registry orgId dataType (retentionClassification dataType),
          getRetentionPeriod registry orgId dataType = r.restrictions.retentionPeriodDays) := by
  refine ⟨fun h => getRetentionPeriod_nil h, ?_, ?_⟩
  · intro r hr
    cases happ : getApplicableRules registry orgId dataType
        (retentionClassification dataType) with
    | nil =>
      rw [happ] at hr
      exact absurd hr (List.not_mem_nil r)
    | cons r0 rest =>
      rw [getRetentionPeriod_cons happ]
      rw [happ] at hr
      rcases List.mem_cons.mp hr with rfl | hr'
      · exact foldl_min_le_init _ _
      · exact foldl_min_le_mem _ _ _ (List.mem_map_of_mem _ hr')
  · intro hne
    cases happ : getApplicableRules registry orgId dataType
        (retentionClassification dataType) with
    | nil => exact absurd happ hne
    | cons r0 rest =>
      rcases foldl_min_mem (rest.map (fun x => x.restrictions.retentionPeriodDays))
          r0.restrictions.retentionPeriodDays with h | h
      · exact ⟨r0, List.mem_cons_self r0 rest, by rw [getRetentionPeriod_cons happ, h]⟩
      · rcases List.mem_map.mp h with ⟨r, hr, hrr⟩
        exact ⟨r, List.mem_cons_of_mem r0 hr,
          by rw [getRetentionPeriod_cons happ]; exact hrr.symm⟩

/-- Witness for C8: with a registered tenant rule of 365 days next to the
2555-day built-in rules, the minimum 365 is attained, and indeed
getRetentionPeriod returns 365. -/
theorem getRetentionPeriod_spec_witness :
    getApplicableRules registryWithAcme "acme" "financial"
      (retentionClassification "financial") ≠ []
    ∧ (∃ r ∈ getApplicableRules registryWithAcme "acme" "financial"
        (retentionClassification "financial"),
        getRetentionPeriod registryWithAcme "acme" "financial"
          = r.restrictions.retentionPeriodDays)
    ∧ getRetentionPeriod registryWithAcme "acme" "financial" = 365 :=
  ⟨by decide, (getRetentionPeriod_spec registryWithAcme "acme" "financial").2.2 (by decide),
    by decide⟩

/-- Claim C9 counterexample: on a signature whose decoded byte length (0)
differs from the 32-byte digest, verifyHMAC propagates the timingSafeEqual
length exception instead of returning a boolean. -/
theorem verifyHMAC_throws_counterexample :
    verifyHMAC (some "k") "data" []
      = Except.error "Input buffers must have the same byte length" := by
  decide

/-- Claim C9 (amended): with the HMAC secret configured, verifyHMAC returns
true exactly when the signature equals the recomputed digest; for a
signature of the digest's byte length (32) that differs in content it
returns false; but for a signature whose byte length differs it throws the
timingSafeEqual length error rather than returning a boolean. -/
theorem verifyHMAC_spec (secret data : String) (sig : List Nat) :
    (verifyHMAC (some secret) data sig = Except.ok true ↔ sig = hmacBytes secret data)
    ∧ (sig.length ≠ 32 → verifyHMAC (some secret) data sig
        = Except.error "Input buffers must have the same byte length")
    ∧ (sig.length = 32 → sig ≠ hmacBytes secret data →
        verifyHMAC (some secret) data sig = Except.ok false) := by
  refine ⟨⟨?_, ?_⟩, fun hlen => verifyHMAC_length_error secret data hlen,
    fun hlen hne => verifyHMAC_of_ne secret data hlen hne⟩
  · intro h
    by_cases hlen : sig.length = 32
    · by_cases heq : sig = hmacBytes secret data
      · exact heq
      · rw [verifyHMAC_of_ne secret data hlen heq] at h
        simp at h
    · rw [verifyHMAC_length_error secret data hlen] at h
      simp at h
  · intro h
    rw [h]
    exact verifyHMAC_self secret data

/-- Witness for C9: the genuine digest verifies to ok true; a wrong 32-byte
signature verifies to ok false. -/
theorem verifyHMAC_spec_witness :
    verifyHMAC (some "k") "d" (hmacBytes "k" "d") = Except.ok true
    ∧ verifyHMAC (some "k") "d" (List.replicate 32 0) = Except.ok false :=
  ⟨(verifyHMAC_spec "k" "d" (hmacBytes "k" "d")).1.mpr rfl,
    (verifyHMAC_spec "k" "d" (List.replicate 32 0)).2.2 (by decide) (by decide)⟩

/-- Claim C10: when the rule gathering/application inside
validateDataOperation throws, the catch block returns the fail-closed
verdict (allowed = false, reason "Data residency validation failed", no
requirements); an internal error never yields an allow verdict. -/
theorem validate_fail_closed_on_error (err : String) (op : Operation)
    (targetRegion : String) (c : DataClassification) :
    validateDataOperationE (Except.error err) op targetRegion c = failClosedResult ∧
    (validateDataOperationE (Except.error err) op targetRegion c).allowed = false :=
  ⟨rfl, rfl⟩
